import Mathlib

/-!
Verification development for the SEP-scraper repository.

We give a shallow embedding of the Python sources
(`simple_scraper.py`, `embeddings.py`, `supabase_client.py`) as
executable Lean definitions and prove/refute the specification claims
about them.  HTML documents are modelled as flat lists of nodes in
document order (the selector resolution done by BeautifulSoup is
represented by pre-resolved optional fragments on a `Document`);
machine floats never influence control flow in the claims considered,
so embedding vectors are abstracted as `List Int` payloads; external
network/database effects are modelled as explicit oracle parameters,
with `Option`/`Except` results standing for Python exceptions.
-/

namespace SEP

/-! ### Python string primitives -/

/-- The whitespace characters of Python `str.strip()` (ASCII part):
space, tab, newline, carriage return, vertical tab, form feed. -/
def isPyWs (c : Char) : Bool :=
  c == ' ' || c == '\t' || c == '\n' || c == '\r' ||
  c == Char.ofNat 11 || c == Char.ofNat 12

/-- Python `str.strip()` on a character list: drop whitespace from both ends. -/
def pyStrip (l : List Char) : List Char :=
  List.rdropWhile isPyWs (l.dropWhile isPyWs)

/-- Python `str.strip()` on strings. -/
def pyStripStr (s : String) : String :=
  String.mk (pyStrip s.data)

/-- Python truthiness of a string (`""` is falsy). -/
def pyTruthy (s : String) : Bool :=
  s != ""

/-- Lower-case a character list (Python `str.lower()` / SQL `ilike` folding). -/
def lowerChars (l : List Char) : List Char :=
  l.map Char.toLower

/-- Containment of `needle` in `hay` as a contiguous substring. -/
def containsSub (hay needle : List Char) : Bool :=
  match hay with
  | [] => needle.isEmpty
  | _ :: t => needle.isPrefixOf hay || containsSub t needle

/-- PostgREST `ilike "%query%"` on a text column: case-insensitive
substring match (wildcard metacharacters are not modelled; the claims
only use plain queries). -/
def ilike (field query : String) : Bool :=
  containsSub (lowerChars field.data) (lowerChars query.data)

/-! ### HTML document model (`simple_scraper.py`)

A `Node` is one element of the document in document order, with its tag
name, optional `id` attribute and text content.  A `Fragment` is a list
of nodes.  A `Document` records what the three selectors used by
`_process_content` resolve to: `select_one("#main-content")`,
`select_one(".aueditable")` and `soup.body` (each `none` when the
document has no such element; with the `html.parser` backend `soup.body`
is `None` when the HTML has no `<body>` tag). -/

structure Node where
  tag : String
  idAttr : Option String
  text : String
deriving DecidableEq

abbrev Fragment := List Node

structure Document where
  mainContent : Option Fragment
  aueditable : Option Fragment
  body : Option Fragment

/-- The heading rank selected by `content_elem.select("h2, h3, h4, h5, h6")`:
`some r` exactly for the five heading tags, `none` otherwise. -/
def headingRank (tag : String) : Option Nat :=
  if tag == "h2" then some 2
  else if tag == "h3" then some 3
  else if tag == "h4" then some 4
  else if tag == "h5" then some 5
  else if tag == "h6" then some 6
  else none

structure TocEntry where
  id : String
  text : String
  level : Nat
deriving DecidableEq

/-- Embeds `SimpleSEPScraper._extract_toc`: select the `h2`–`h6` headings of
the content element in document order; skip a heading when
`not heading.get("id")` (the attribute is missing, or present but the
empty string, which is falsy in Python); otherwise emit
`{"id": id, "text": heading.text.strip(), "level": rank - 1}`.
A `None` content element yields the empty list (`if not content_elem`). -/
def extract_toc : Option Fragment → List TocEntry
  | none => []
  | some f =>
    f.filterMap fun n =>
      match headingRank n.tag with
      | none => none
      | some r =>
        match n.idAttr with
        | none => none
        | some i => if i == "" then none else some ⟨i, pyStripStr n.text, r - 1⟩

/-- The claim C2's reading of `_extract_toc`, written from the spec's words:
every rank-2–6 heading is kept unless it *lacks an id attribute*; an
id attribute that is present (even empty) is kept. -/
def toc_claimed : Option Fragment → List TocEntry
  | none => []
  | some f =>
    f.filterMap fun n =>
      match headingRank n.tag with
      | none => none
      | some r =>
        match n.idAttr with
        | none => none
        | some i => some ⟨i, pyStripStr n.text, r - 1⟩

/-- The amended reading: a heading is skipped when its id attribute is
missing *or empty*. -/
def toc_amended : Option Fragment → List TocEntry
  | none => []
  | some f =>
    f.filterMap fun n =>
      match headingRank n.tag with
      | none => none
      | some r =>
        match n.idAttr with
        | none => none
        | some i => if i = "" then none else some ⟨i, pyStripStr n.text, r - 1⟩

/-- Embeds the last-resort cleanup of `_process_content`: from the body,
`decompose()` every element matching `#header, #footer, script, style`. -/
def cleanBody (b : Fragment) : Fragment :=
  b.filter fun n =>
    !(n.idAttr == some "header" || n.idAttr == some "footer" ||
      n.tag == "script" || n.tag == "style")

/-- Serialization `str(content_elem)`: Python's `str(None)` is the string
`"None"`; a tag serializes to its HTML text. -/
def renderNode (n : Node) : String :=
  let idPart :=
    match n.idAttr with
    | none => ""
    | some i => " id=\"" ++ i ++ "\""
  "<" ++ n.tag ++ idPart ++ ">" ++ n.text ++ "</" ++ n.tag ++ ">"

def strOfContent : Option Fragment → String
  | none => "None"
  | some f => String.join (f.map renderNode)

/-- The content-root selection of `_process_content`: `#main-content`,
else `.aueditable`, else the body with `#header, #footer, script, style`
elements removed (bs4 `Tag.__bool__` is always `True`, so
`if not content_elem` tests only for `None`). When no body exists the
content element stays `None`. -/
def select_content (doc : Document) : Option Fragment :=
  match doc.mainContent with
  | some f => some f
  | none =>
    match doc.aueditable with
    | some f => some f
    | none =>
      match doc.body with
      | some b => some (cleanBody b)
      | none => none

/-- Embeds `SimpleSEPScraper._process_content`: select the content root,
extract the toc from it, and return `(str(content_elem), toc)`.  Note the
function raises nothing: with no content root it returns the Python
string `str(None) = "None"` together with an empty toc. -/
def process_content (doc : Document) : String × List TocEntry :=
  let c := select_content doc
  (strOfContent c, extract_toc c)

/-! ### Embedding generation (`embeddings.py`)

`generate_embedding` is embedded with the remote OpenAI call as an
oracle `net : Nat → Option Embedding` giving the outcome of each
attempt (`none` = the call raised).  The trace records the result, how
many network calls were made, and the sleep durations (in seconds)
performed between failed attempts. -/

abbrev Embedding := List Int

structure EmbedTrace where
  result : Option Embedding
  attempts : Nat
  sleeps : List Nat
deriving DecidableEq

/-- The retry loop of `generate_embedding`:
`for attempt in range(max_retries)`; on success return the embedding; on
failure sleep `2 ** attempt` and retry, except after the last attempt,
where `None` is returned.  `remaining` counts the iterations of the
`for` loop still to run (`remaining = max_retries - attempt`, kept as a
structurally decreasing argument); with `max_retries = 0` the loop body
never runs and the function falls through returning `None`. -/
def retryLoop (net : Nat → Option Embedding) (maxRetries : Nat) :
    Nat → Nat → List Nat → EmbedTrace
  | 0, attempt, sleeps => ⟨none, attempt, sleeps⟩
  | remaining + 1, attempt, sleeps =>
    match net attempt with
    | some emb => ⟨some emb, attempt + 1, sleeps⟩
    | none =>
      if attempt < maxRetries - 1 then
        retryLoop net maxRetries remaining (attempt + 1) (sleeps ++ [2 ^ attempt])
      else ⟨none, attempt + 1, sleeps⟩

/-- Embeds `generate_embedding(text, model, max_retries)`:
blank or whitespace-only text returns `None` before any network call;
a missing API key likewise; otherwise the text is truncated to 20000
characters and the retry loop runs against the oracle. -/
def generate_embedding (net : String → Nat → Option Embedding)
    (apiKey : Bool) (text : String) (maxRetries : Nat) : EmbedTrace :=
  if !pyTruthy text || !pyTruthy (pyStripStr text) then ⟨none, 0, []⟩
  else if !apiKey then ⟨none, 0, []⟩
  else
    let t := String.mk (text.data.take 20000)
    retryLoop (net t) maxRetries maxRetries 0 []

/-- Embeds `generate_article_embeddings(title, content)`: attempt both
embeddings independently; each key is present in the result exactly when
its own call returned a (truthy, i.e. non-empty) vector. -/
def generate_article_embeddings (net : String → Nat → Option Embedding)
    (apiKey : Bool) (title content : String) :
    Option Embedding × Option Embedding :=
  let te := (generate_embedding net apiKey title 3).result
  let ce := (generate_embedding net apiKey content 3).result
  (match te with
   | some e => if e.isEmpty then none else some e
   | none => none,
   match ce with
   | some e => if e.isEmpty then none else some e
   | none => none)

/-! ### Author extraction (`SimpleSEPScraper._extract_metadata`, authors block)

The authors block strips a leading `Entry by\s*:\s*` via `re.sub`, splits
on the regex `,\s*|\s+and\s+|\s*&\s*` via `re.split`, strips every
fragment and keeps the non-empty ones.  We embed the two regexes
directly: the alternation is tried left to right at each position
(leftmost match wins), the quantifiers are greedy; for these patterns
greedy matching is deterministic, since backtracking a `\s+`/`\s*` can
never expose the required non-whitespace literal earlier. -/

/-- The third alternative `\s*&\s*` matched at the head of `cs`:
greedy whitespace, an ampersand, greedy whitespace. -/
def matchAmp (cs : List Char) : Option (List Char) :=
  match cs.dropWhile isPyWs with
  | '&' :: r => some (r.dropWhile isPyWs)
  | _ => none

/-- One separator match of `,\s*|\s+and\s+|\s*&\s*` at the head of `cs`:
the three alternatives in order, returning the input after the match. -/
def matchSep (cs : List Char) : Option (List Char) :=
  match cs with
  | ',' :: r => some (r.dropWhile isPyWs)
  | _ =>
    if (cs.takeWhile isPyWs).isEmpty then matchAmp cs
    else
      match cs.dropWhile isPyWs with
      | 'a' :: 'n' :: 'd' :: r2 =>
        if (r2.takeWhile isPyWs).isEmpty then matchAmp cs
        else some (r2.dropWhile isPyWs)
      | _ => matchAmp cs

/-- `re.split` with the separator pattern: scan left to right; where a
separator matches, close the current fragment and continue after the
match; otherwise keep the character.  The recursion is driven by a
`fuel` counter that decreases by one per step; since every separator
match consumes at least one character, `fuel = cs.length` (as passed by
`extract_authors`) always suffices and the fuel-exhaustion branch is
unreachable on actual inputs. -/
def reSplitSep (fuel : Nat) (cs : List Char) (acc : List Char) :
    List (List Char) :=
  match fuel, cs with
  | _, [] => [acc.reverse]
  | 0, _ :: _ => [acc.reverse ++ cs]
  | fuel + 1, c :: rest =>
    match matchSep (c :: rest) with
    | some rest2 => acc.reverse :: reSplitSep fuel rest2 []
    | none => reSplitSep fuel rest (c :: acc)

/-- `re.sub(r"^Entry by\s*:\s*", "", s)`: after the literal `Entry by`,
greedy whitespace, a colon, greedy whitespace; no match leaves the text
unchanged. -/
def stripEntryBy (cs : List Char) : List Char :=
  match cs with
  | 'E' :: 'n' :: 't' :: 'r' :: 'y' :: ' ' :: 'b' :: 'y' :: rest =>
    match rest.dropWhile isPyWs with
    | ':' :: r => r.dropWhile isPyWs
    | _ => cs
  | _ => cs

/-- Embeds the authors block of `_extract_metadata` (given the stripped
text of the `#aueditor` element): strip the `Entry by:` marker, split on
commas, the word `and`, or ampersand, strip each part, keep non-empty
parts. -/
def extract_authors (authorsText : String) : List String :=
  let t := stripEntryBy (pyStrip authorsText.data)
  ((reSplitSep t.length t []).map fun cs => String.mk (pyStrip cs)).filter
    fun a => a != ""

/-! ### Existence probe (`SimpleSEPScraper.entry_exists`)

The `HEAD` request is an oracle `head : String → Option Nat` returning
the status code, `none` when the request raised.  The second component
of the result records whether a request was issued at all. -/

def sepUrlStart : String := "https://plato.stanford.edu/entries/"

/-- Python `str.startswith`. -/
def pyStartsWith (s pre : String) : Bool :=
  pre.data.isPrefixOf s.data

/-- Embeds `entry_exists(url)`: a URL not starting with the SEP entries
prefix returns `False` immediately; otherwise a `HEAD` request is made
and the result is `status == 200`, with any exception yielding `False`. -/
def entry_exists (head : String → Option Nat) (url : String) : Bool × Bool :=
  if !pyStartsWith url sepUrlStart then (false, false)
  else
    match head url with
    | some status => (status == 200, true)
    | none => (false, true)

/-! ### Persistence gateway (`supabase_client.py`)

The two Supabase tables are modelled as row lists in insertion order;
`.eq`/`.ilike` filters, `.limit`, `.insert` (append) and
`.update ... .eq` (field replacement on every matching row) follow the
PostgREST semantics used by the code.  Columns the code never writes are
omitted from the row model.  External effects that can raise are
oracle parameters. -/

structure MetadataRow where
  entry_id : String
  title : String
  last_updated : Option String
  published : Option String
  preamble : Option String
  content_hash : Option String
  authors : List String
  title_embedding : Option Embedding
  content_embedding : Option Embedding
  updated_at : String
deriving DecidableEq

structure ContentRow where
  entry_id : String
  content : Option String
  markdown : Option String
  toc : Option (List TocEntry)
  updated_at : String
deriving DecidableEq

structure DB where
  entry_metadata : List MetadataRow
  entry_content : List ContentRow
deriving DecidableEq

/-- The number of metadata rows stored under a given `entry_id`. -/
def metaCount (db : DB) (eid : String) : Nat :=
  (db.entry_metadata.filter fun r => r.entry_id == eid).length

/-- Python truthiness of an optional string argument
(`None` and `""` are falsy). -/
def pyTruthyOpt : Option String → Bool
  | none => false
  | some s => s != ""

/-- The metadata dict built by `save_entry`, applied by a Supabase
`update` to one existing row: every always-present key overwrites the
column, while the two embedding keys — present in the dict only when the
corresponding embedding was generated — leave the column untouched when
absent. -/
def applyMeta (eid title : String) (date_issued date_modified preamble
    content_hash : Option String) (authors : Option (List String))
    (embeds : Option Embedding × Option Embedding) (now : String)
    (r : MetadataRow) : MetadataRow :=
  { entry_id := eid, title := title, last_updated := date_modified,
    published := date_issued, preamble := preamble,
    content_hash := content_hash, authors := authors.getD [],
    title_embedding := match embeds.1 with
      | some e => some e
      | none => r.title_embedding,
    content_embedding := match embeds.2 with
      | some e => some e
      | none => r.content_embedding,
    updated_at := now }

/-- The metadata dict of `save_entry` as a freshly inserted row (absent
embedding keys become NULL columns). -/
def newMetaRow (eid title : String) (date_issued date_modified preamble
    content_hash : Option String) (authors : Option (List String))
    (embeds : Option Embedding × Option Embedding) (now : String) :
    MetadataRow :=
  { entry_id := eid, title := title, last_updated := date_modified,
    published := date_issued, preamble := preamble,
    content_hash := content_hash, authors := authors.getD [],
    title_embedding := embeds.1, content_embedding := embeds.2,
    updated_at := now }

/-- Embeds `SupabaseManager.save_entry`: select the metadata rows with
this `entry_id`; build the metadata dict (embedding keys present only
when `enable_embeddings and markdown and title` and the corresponding
embedding was generated) and the content dict; if a row was found,
update both tables, otherwise insert into both; return `True`.  `now`
stands for `datetime.now().isoformat()`. -/
def save_entry (net : String → Nat → Option Embedding) (apiKey : Bool)
    (enableEmbeddings : Bool) (db : DB) (eid title : String)
    (date_issued date_modified preamble content_hash html markdown : Option String)
    (toc : Option (List TocEntry)) (authors : Option (List String))
    (now : String) : DB × Bool :=
  let found := db.entry_metadata.filter fun r => r.entry_id == eid
  let embeds :=
    if enableEmbeddings && pyTruthyOpt markdown && pyTruthy title then
      generate_article_embeddings net apiKey title (markdown.getD "")
    else (none, none)
  let newContent : ContentRow :=
    { entry_id := eid, content := html, markdown := markdown, toc := toc,
      updated_at := now }
  if found.length > 0 then
    ({ entry_metadata := db.entry_metadata.map fun r =>
         if r.entry_id == eid then
           applyMeta eid title date_issued date_modified preamble
             content_hash authors embeds now r
         else r,
       entry_content := db.entry_content.map fun c =>
         if c.entry_id == eid then newContent else c }, true)
  else
    ({ entry_metadata := db.entry_metadata ++
         [newMetaRow eid title date_issued date_modified preamble
           content_hash authors embeds now],
       entry_content := db.entry_content ++ [newContent] }, true)

/-- Embeds `SupabaseManager.search_by_text`: title `ilike "%query%"`
capped at `limit`; when short of `limit`, fetch at most the *remaining*
number of content rows whose markdown matches, drop the entry ids
already found, and append the metadata rows of the ids that are left.
(The code projects result rows to five columns; we return the full
rows, which carry the same entry identity and title.) -/
def mdMatches (query : String) (c : ContentRow) : Bool :=
  match c.markdown with
  | some m => ilike m query
  | none => false

def search_by_text (db : DB) (query : String) (lim : Nat) : List MetadataRow :=
  let results := (db.entry_metadata.filter fun r => ilike r.title query).take lim
  if results.length < lim then
    let remaining := lim - results.length
    let contentMatches := (db.entry_content.filter (mdMatches query)).take remaining
    let contentIds := contentMatches.map fun c => c.entry_id
    let existing := results.map fun r => r.entry_id
    let newIds := contentIds.filter fun i => !(existing.contains i)
    let additional := newIds.flatMap fun i =>
      db.entry_metadata.filter fun r => r.entry_id == i
    results ++ additional
  else results

/-- Embeds `SupabaseManager.vector_search`: embed the query (via
`generate_embedding`); on a falsy embedding return `[]` with no RPC
issued; otherwise call the `match_entries` RPC (an oracle that may
raise) and return its data, with `[]` for empty data or an exception.
The float similarity threshold is passed through uninterpreted, as an
`Int` payload.  The second component records whether the RPC was
issued. -/
def vector_search (net : String → Nat → Option Embedding) (apiKey : Bool)
    (rpc : Embedding → Int → Nat → String → Option (List MetadataRow))
    (query : String) (lim : Nat) (search_type : String)
    (similarity_threshold : Int) : List MetadataRow × Bool :=
  match (generate_embedding net apiKey query 3).result with
  | none => ([], false)
  | some emb =>
    if emb.isEmpty then ([], false)
    else
      match rpc emb similarity_threshold lim search_type with
      | some data => (if data.isEmpty then [] else data, true)
      | none => ([], true)

/-- A metadata row with only id and title populated (used as concrete
search-scenario data). -/
def mkMeta (eid title : String) : MetadataRow :=
  ⟨eid, title, none, none, none, none, [], none, none, "t"⟩

/-- A content row with only id and markdown populated. -/
def mkContent (eid md : String) : ContentRow :=
  ⟨eid, none, some md, none, "t"⟩

/-- The claim C5 scenario: a store where the query `"quine"` matches 2
titles and all 5 markdown bodies (the two title-matching entries' bodies
among them). -/
def searchDB : DB :=
  ⟨[mkMeta "e1" "Quine A", mkMeta "e2" "Quine B", mkMeta "e3" "C",
    mkMeta "e4" "D", mkMeta "e5" "E"],
   [mkContent "e1" "about quine", mkContent "e2" "about quine",
    mkContent "e3" "about quine", mkContent "e4" "about quine",
    mkContent "e5" "about quine"]⟩

structure RegenResult where
  success_count : Nat
  failure_count : Nat
  total_processed : Option Nat
deriving DecidableEq

/-- The per-entry loop of `regenerate_embeddings` over the fetched page.
Oracles: `contentFetch id` returns the `markdown` fields of the matching
content rows (`Except.error` = the query raised, which escapes to the
outer handler); `embed title markdown` performs
`generate_article_embeddings` (`Except.error` = it raised, caught by the
per-entry handler); `update id embeds` performs the metadata update and
tells whether the response carried data (`Except.error` = it raised,
caught per-entry).  Returns the two counters and whether the loop ran to
completion. -/
def regen_loop (contentFetch : String → Except Unit (List (Option String)))
    (embed : String → String → Except Unit (Option Embedding × Option Embedding))
    (update : String → Option Embedding × Option Embedding → Except Unit Bool) :
    List (String × String) → Nat → Nat → Nat × Nat × Bool
  | [], s, f => (s, f, true)
  | (eid, title) :: rest, s, f =>
    match contentFetch eid with
    | .error _ => (s, f, false)
    | .ok rows =>
      match rows with
      | [] => regen_loop contentFetch embed update rest s (f + 1)
      | mdField :: _ =>
        if !pyTruthyOpt mdField then
          regen_loop contentFetch embed update rest s (f + 1)
        else
          match embed title (mdField.getD "") with
          | .error _ => regen_loop contentFetch embed update rest s (f + 1)
          | .ok embeds =>
            if embeds.1.isNone && embeds.2.isNone then
              regen_loop contentFetch embed update rest s (f + 1)
            else
              if embeds.1.isNone && embeds.2.isNone then
                regen_loop contentFetch embed update rest s f
              else
                match update eid embeds with
                | .error _ => regen_loop contentFetch embed update rest s (f + 1)
                | .ok true => regen_loop contentFetch embed update rest (s + 1) f
                | .ok false => regen_loop contentFetch embed update rest s (f + 1)

/-- Embeds `SupabaseManager.regenerate_embeddings`: fetch the page of
`(entry_id, title)` pairs (an oracle that may raise), run the per-entry
loop, and return the counters; `total_processed` is present exactly when
no exception escaped to the outer handler (the outer `except` returns a
dict without `total_processed`). -/
def regenerate_embeddings (pageFetch : Except Unit (List (String × String)))
    (contentFetch : String → Except Unit (List (Option String)))
    (embed : String → String → Except Unit (Option Embedding × Option Embedding))
    (update : String → Option Embedding × Option Embedding → Except Unit Bool) :
    RegenResult :=
  match pageFetch with
  | .error _ => ⟨0, 0, none⟩
  | .ok entries =>
    let r := regen_loop contentFetch embed update entries 0 0
    ⟨r.1, r.2.1, if r.2.2 then some entries.length else none⟩

/-! ## Helper lemmas -/

theorem pyStrip_idem (l : List Char) : pyStrip (pyStrip l) = pyStrip l := by
  unfold pyStrip
  have hdw : (List.rdropWhile isPyWs (l.dropWhile isPyWs)).dropWhile isPyWs =
      List.rdropWhile isPyWs (l.dropWhile isPyWs) := by
    rw [List.dropWhile_eq_self_iff]
    intro hl
    have hpre := List.rdropWhile_prefix isPyWs (l.dropWhile isPyWs)
    have hAl : 0 < (l.dropWhile isPyWs).length := lt_of_lt_of_le hl hpre.length_le
    have hget : (List.rdropWhile isPyWs (l.dropWhile isPyWs)).get ⟨0, hl⟩ =
        (l.dropWhile isPyWs).get ⟨0, hAl⟩ := by
      simpa [List.get_eq_getElem] using hpre.getElem hl
    rw [hget]
    exact List.dropWhile_get_zero_not isPyWs l hAl
  rw [hdw]
  exact List.rdropWhile_idempotent isPyWs (l.dropWhile isPyWs)

theorem retryLoop_fail_result (net : Nat → Option Embedding)
    (hf : ∀ i, net i = none) (mr : Nat) :
    ∀ (remaining attempt : Nat) (sleeps : List Nat),
      (retryLoop net mr remaining attempt sleeps).result = none := by
  intro remaining
  induction remaining with
  | zero => intro attempt sleeps; rfl
  | succ n ih =>
    intro attempt sleeps
    simp only [retryLoop, hf]
    split
    · exact ih _ _
    · rfl

theorem retryLoop_fail_trace (net : Nat → Option Embedding)
    (hf : ∀ i, net i = none) (mr : Nat) :
    ∀ (remaining attempt : Nat) (sleeps : List Nat),
      attempt + remaining = mr → 1 ≤ remaining →
      retryLoop net mr remaining attempt sleeps =
        ⟨none, mr, sleeps ++ (List.range (remaining - 1)).map fun j => 2 ^ (attempt + j)⟩ := by
  intro remaining
  induction remaining with
  | zero => intro attempt sleeps h h1; omega
  | succ n ih =>
    intro attempt sleeps h _
    simp only [retryLoop, hf]
    by_cases hc : attempt < mr - 1
    · rw [if_pos hc]
      have hn : 1 ≤ n := by omega
      rw [ih (attempt + 1) (sleeps ++ [2 ^ attempt]) (by omega) hn]
      congr 1
      rw [List.append_assoc]
      congr 1
      obtain ⟨m, rfl⟩ : ∃ m, n = m + 1 := ⟨n - 1, by omega⟩
      simp only [Nat.add_sub_cancel]
      rw [List.range_succ_eq_map]
      simp only [List.map_cons, List.map_map, Nat.add_zero,
        List.singleton_append]
      congr 1
      apply List.map_congr_left
      intro j _
      simp only [Function.comp_apply]
      congr 1
      omega
    · rw [if_neg hc]
      have hn : n = 0 := by omega
      subst hn
      have ha : attempt + 1 = mr := by omega
      simp [ha]

theorem filter_upd_eq (l : List MetadataRow) (eid : String)
    (g : MetadataRow → MetadataRow) (hg : ∀ r, (g r).entry_id = eid) :
    ((l.map fun r => if r.entry_id == eid then g r else r).filter
      fun r => r.entry_id == eid) =
      (l.filter fun r => r.entry_id == eid).map g := by
  induction l with
  | nil => rfl
  | cons r t ih =>
    by_cases h : r.entry_id = eid
    · have hb : (r.entry_id == eid) = true := by simp [h]
      have hbg : ((g r).entry_id == eid) = true := by simp [hg r]
      rw [List.map_cons, if_pos hb,
        @List.filter_cons_of_pos _ (fun r => r.entry_id == eid) (g r) _ hbg,
        @List.filter_cons_of_pos _ (fun r => r.entry_id == eid) r _ hb,
        List.map_cons, ih]
    · have hb : ¬(r.entry_id == eid) = true := by simp [h]
      rw [List.map_cons, if_neg hb,
        @List.filter_cons_of_neg _ (fun r => r.entry_id == eid) r _ hb,
        @List.filter_cons_of_neg _ (fun r => r.entry_id == eid) r _ hb, ih]

theorem filter_upd_ne (l : List MetadataRow) (eid id2 : String) (hne : id2 ≠ eid)
    (g : MetadataRow → MetadataRow) (hg : ∀ r, (g r).entry_id = eid) :
    ((l.map fun r => if r.entry_id == eid then g r else r).filter
      fun r => r.entry_id == id2) = l.filter fun r => r.entry_id == id2 := by
  induction l with
  | nil => rfl
  | cons r t ih =>
    by_cases h : r.entry_id = eid
    · have hb : (r.entry_id == eid) = true := by simp [h]
      have hbg : ¬((g r).entry_id == id2) = true := by
        simp [hg r]
        exact hne.symm
      have hr2 : ¬(r.entry_id == id2) = true := by
        simp [h]
        exact hne.symm
      rw [List.map_cons, if_pos hb,
        @List.filter_cons_of_neg _ (fun r => r.entry_id == id2) (g r) _ hbg,
        @List.filter_cons_of_neg _ (fun r => r.entry_id == id2) r _ hr2, ih]
    · have hb : ¬(r.entry_id == eid) = true := by simp [h]
      rw [List.map_cons, if_neg hb]
      by_cases h2 : r.entry_id = id2
      · have hb2 : (r.entry_id == id2) = true := by simp [h2]
        rw [@List.filter_cons_of_pos _ (fun r => r.entry_id == id2) r _ hb2,
          @List.filter_cons_of_pos _ (fun r => r.entry_id == id2) r _ hb2, ih]
      · have hb2 : ¬(r.entry_id == id2) = true := by simp [h2]
        rw [@List.filter_cons_of_neg _ (fun r => r.entry_id == id2) r _ hb2,
          @List.filter_cons_of_neg _ (fun r => r.entry_id == id2) r _ hb2, ih]

theorem map_title_const (l : List MetadataRow) (g : MetadataRow → MetadataRow)
    (title : String) (hgt : ∀ r, (g r).title = title) :
    ((l.map g).map fun r => r.title) = List.replicate l.length title := by
  rw [List.map_map]
  have h1 : List.map ((fun r => r.title) ∘ g) l = List.map (fun _ => title) l :=
    List.map_congr_left fun r _ => hgt r
  rw [h1, List.map_const']

theorem filter_upd_applyMeta (l : List MetadataRow) (eid title : String)
    (di dm pre ch : Option String) (au : Option (List String))
    (em : Option Embedding × Option Embedding) (now : String) :
    ((l.map fun r => if r.entry_id == eid then
        applyMeta eid title di dm pre ch au em now r else r).filter
      fun r => r.entry_id == eid) =
      (l.filter fun r => r.entry_id == eid).map
        (applyMeta eid title di dm pre ch au em now) :=
  filter_upd_eq l eid _ fun _ => rfl

theorem filter_upd_ne_applyMeta (l : List MetadataRow) (eid title : String)
    (di dm pre ch : Option String) (au : Option (List String))
    (em : Option Embedding × Option Embedding) (now : String) (id2 : String)
    (hne : id2 ≠ eid) :
    ((l.map fun r => if r.entry_id == eid then
        applyMeta eid title di dm pre ch au em now r else r).filter
      fun r => r.entry_id == id2) = l.filter fun r => r.entry_id == id2 :=
  filter_upd_ne l eid id2 hne _ fun _ => rfl

theorem map_title_applyMeta (l : List MetadataRow) (eid title : String)
    (di dm pre ch : Option String) (au : Option (List String))
    (em : Option Embedding × Option Embedding) (now : String) :
    ((l.map (applyMeta eid title di dm pre ch au em now)).map
      fun r => r.title) = List.replicate l.length title :=
  map_title_const l _ title fun _ => rfl

theorem filter_newMetaRow_eq (eid title : String) (di dm pre ch : Option String)
    (au : Option (List String)) (em : Option Embedding × Option Embedding)
    (now : String) :
    ([newMetaRow eid title di dm pre ch au em now].filter
      fun r => r.entry_id == eid) = [newMetaRow eid title di dm pre ch au em now] := by
  rw [List.filter_cons_of_pos (by simp [newMetaRow]), List.filter_nil]

theorem filter_newMetaRow_ne (eid title : String) (di dm pre ch : Option String)
    (au : Option (List String)) (em : Option Embedding × Option Embedding)
    (now : String) (id2 : String) (hne : id2 ≠ eid) :
    ([newMetaRow eid title di dm pre ch au em now].filter
      fun r => r.entry_id == id2) = [] := by
  rw [List.filter_cons_of_neg, List.filter_nil]
  simp [newMetaRow]
  exact hne.symm

theorem save_entry_titles (net : String → Nat → Option Embedding)
    (apiKey enable : Bool) (db : DB) (eid title : String)
    (di dm pre ch html md : Option String) (toc : Option (List TocEntry))
    (au : Option (List String)) (now : String) :
    (((save_entry net apiKey enable db eid title di dm pre ch html md toc au
        now).1.entry_metadata.filter fun r => r.entry_id == eid).map
      fun r => r.title) = List.replicate (max 1 (metaCount db eid)) title := by
  simp only [save_entry]
  by_cases hf : (db.entry_metadata.filter fun r => r.entry_id == eid).length > 0
  · rw [if_pos hf]
    dsimp only
    rw [filter_upd_applyMeta, map_title_applyMeta]
    unfold metaCount
    rw [Nat.max_eq_right hf]
  · rw [if_neg hf]
    dsimp only
    have h0 : (db.entry_metadata.filter fun r => r.entry_id == eid) = [] := by
      rw [← List.length_eq_zero]
      omega
    have hc : metaCount db eid = 0 := by
      unfold metaCount
      rw [h0]
      rfl
    rw [List.filter_append, h0, List.nil_append, filter_newMetaRow_eq, hc]
    rfl

theorem save_entry_count_ne (net : String → Nat → Option Embedding)
    (apiKey enable : Bool) (db : DB) (eid title : String)
    (di dm pre ch html md : Option String) (toc : Option (List TocEntry))
    (au : Option (List String)) (now : String) (id2 : String) (hne : id2 ≠ eid) :
    metaCount (save_entry net apiKey enable db eid title di dm pre ch html md
      toc au now).1 id2 = metaCount db id2 := by
  unfold metaCount
  simp only [save_entry]
  by_cases hf : (db.entry_metadata.filter fun r => r.entry_id == eid).length > 0
  · rw [if_pos hf]
    dsimp only
    rw [filter_upd_ne_applyMeta _ _ _ _ _ _ _ _ _ _ _ hne]
  · rw [if_neg hf]
    dsimp only
    rw [List.filter_append, filter_newMetaRow_ne _ _ _ _ _ _ _ _ _ _ hne,
      List.append_nil]

theorem save_entry_lengths (net : String → Nat → Option Embedding)
    (apiKey enable : Bool) (db : DB) (eid title : String)
    (di dm pre ch html md : Option String) (toc : Option (List TocEntry))
    (au : Option (List String)) (now : String) :
    (metaCount db eid = 0 →
      (save_entry net apiKey enable db eid title di dm pre ch html md toc au
        now).1.entry_metadata.length = db.entry_metadata.length + 1 ∧
      (save_entry net apiKey enable db eid title di dm pre ch html md toc au
        now).1.entry_content.length = db.entry_content.length + 1) ∧
    (0 < metaCount db eid →
      (save_entry net apiKey enable db eid title di dm pre ch html md toc au
        now).1.entry_metadata.length = db.entry_metadata.length ∧
      (save_entry net apiKey enable db eid title di dm pre ch html md toc au
        now).1.entry_content.length = db.entry_content.length) := by
  unfold metaCount
  simp only [save_entry]
  by_cases hf : (db.entry_metadata.filter fun r => r.entry_id == eid).length > 0
  · rw [if_pos hf]
    constructor
    · intro h0
      omega
    · intro _
      dsimp only
      simp [List.length_map]
  · rw [if_neg hf]
    constructor
    · intro _
      dsimp only
      simp
    · intro h0
      omega

theorem save_entry_ok (net : String → Nat → Option Embedding)
    (apiKey enable : Bool) (db : DB) (eid title : String)
    (di dm pre ch html md : Option String) (toc : Option (List TocEntry))
    (au : Option (List String)) (now : String) :
    (save_entry net apiKey enable db eid title di dm pre ch html md toc au
      now).2 = true := by
  simp only [save_entry]
  by_cases hf : (db.entry_metadata.filter fun r => r.entry_id == eid).length > 0
  · rw [if_pos hf]
  · rw [if_neg hf]

theorem regen_loop_sum (contentFetch : String → Except Unit (List (Option String)))
    (embed : String → String → Except Unit (Option Embedding × Option Embedding))
    (update : String → Option Embedding × Option Embedding → Except Unit Bool) :
    ∀ (entries : List (String × String)) (s f : Nat),
      (regen_loop contentFetch embed update entries s f).2.2 = true →
      (regen_loop contentFetch embed update entries s f).1 +
        (regen_loop contentFetch embed update entries s f).2.1 =
        s + f + entries.length := by
  intro entries
  induction entries with
  | nil =>
    intro s f _
    simp [regen_loop]
  | cons e rest ih =>
    intro s f
    obtain ⟨eid, title⟩ := e
    simp only [regen_loop, List.length_cons]
    cases contentFetch eid with
    | error u => intro hdone; exact absurd hdone (by simp)
    | ok rows =>
      cases rows with
      | nil =>
        dsimp only
        intro hdone
        have h2 := ih s (f + 1) hdone
        omega
      | cons mdField mrest =>
        dsimp only
        cases hpt : pyTruthyOpt mdField with
        | false =>
          simp only [hpt, Bool.not_false, if_true]
          intro hdone
          have h2 := ih s (f + 1) hdone
          omega
        | true =>
          simp only [hpt, Bool.not_true, Bool.false_eq_true, if_false]
          cases embed title (mdField.getD "") with
          | error u =>
            dsimp only
            intro hdone
            have h2 := ih s (f + 1) hdone
            omega
          | ok embeds =>
            dsimp only
            cases hb : embeds.1.isNone && embeds.2.isNone with
            | true =>
              simp only [hb, if_true]
              intro hdone
              have h2 := ih s (f + 1) hdone
              omega
            | false =>
              simp only [hb, Bool.false_eq_true, if_false]
              cases update eid embeds with
              | error u =>
                dsimp only
                intro hdone
                have h2 := ih s (f + 1) hdone
                omega
              | ok b =>
                cases b with
                | true =>
                  dsimp only
                  intro hdone
                  have h2 := ih (s + 1) f hdone
                  omega
                | false =>
                  dsimp only
                  intro hdone
                  have h2 := ih s (f + 1) hdone
                  omega

theorem filter_id_map_of_nodup (l : List MetadataRow)
    (hl : (l.map fun r => r.entry_id).Nodup) (i : String) :
    ((l.filter fun r => r.entry_id == i).map fun r => r.entry_id) = [] ∨
    ((l.filter fun r => r.entry_id == i).map fun r => r.entry_id) = [i] := by
  induction l with
  | nil => left; rfl
  | cons r t ih =>
    simp only [List.map_cons, List.nodup_cons] at hl
    obtain ⟨hnotin, hnd⟩ := hl
    by_cases h : r.entry_id = i
    · right
      rw [List.filter_cons_of_pos (by simp [h])]
      have ht : (t.filter fun r => r.entry_id == i) = [] := by
        rw [List.filter_eq_nil_iff]
        intro x hx hbeq
        have hxi : x.entry_id = i := by simpa using hbeq
        rw [h] at hnotin
        exact hnotin (List.mem_map.mpr ⟨x, hx, hxi⟩)
      rw [ht]
      simp [h]
    · rw [List.filter_cons_of_neg (by simp [h])]
      exact ih hnd

theorem flatMap_ids_sublist (ids : List String) (f : String → List MetadataRow)
    (hf : ∀ i, ((f i).map fun r => r.entry_id) = [] ∨
      ((f i).map fun r => r.entry_id) = [i]) :
    ((ids.flatMap f).map fun r => r.entry_id).Sublist ids := by
  induction ids with
  | nil => simp
  | cons i t ih =>
    rw [List.flatMap_cons, List.map_append]
    rcases hf i with h | h
    · rw [h, List.nil_append]
      exact ih.cons i
    · rw [h, List.singleton_append]
      exact ih.cons₂ i

/-! ## Claim theorems -/

/-- C1 (code bug): content-root selection on a document where both the
`#main-content` and `.aueditable` selectors come up empty and the
document has *no body at all* does not fail with `ExtractionError` (no
such error exists in the code): `_process_content` leaves the content
element as `None` and returns `str(None)` — the four-character string
`"None"` — as the content, with an empty table of contents. -/
theorem c1_no_body_returns_None_not_error :
    process_content ⟨none, none, none⟩ = ("None", []) := rfl

/-- C2 counterexample: a rank-2 heading whose id attribute is present
but *empty* is skipped by `_extract_toc` (`not heading.get("id")` is
true for the falsy `""`), while the claim as stated keeps every heading
that has an id attribute. -/
theorem c2_counterexample_empty_id :
    extract_toc (some [⟨"h2", some "", "X"⟩]) = [] ∧
    toc_claimed (some [⟨"h2", some "", "X"⟩]) = [⟨"", "X", 1⟩] ∧
    extract_toc (some [⟨"h2", some "", "X"⟩]) ≠
      toc_claimed (some [⟨"h2", some "", "X"⟩]) := by
  refine ⟨rfl, by decide, by decide⟩

/-- C2 (amended): `_extract_toc` returns exactly the rank-2–6 headings
in document order, each mapped to `level = rank − 1` with the heading's
stripped text, where every heading lacking an id attribute *or carrying
an empty id attribute* is skipped; on the claim's example headings
`h2#a/h3(no id)/h3#b` it yields the claimed two entries. -/
theorem c2_extract_toc_amended :
    (∀ f : Option Fragment, extract_toc f = toc_amended f) ∧
    extract_toc (some [⟨"h2", some "a", "Intro"⟩, ⟨"h3", none, "NoId"⟩,
        ⟨"h3", some "b", "Sub"⟩]) =
      [⟨"a", "Intro", 1⟩, ⟨"b", "Sub", 2⟩] := by
  constructor
  · intro f
    cases f with
    | none => rfl
    | some l =>
      simp only [extract_toc, toc_amended]
      congr 1
      funext n
      cases hr : headingRank n.tag with
      | none => rfl
      | some r =>
        cases hid : n.idAttr with
        | none => rfl
        | some i =>
          by_cases hi : i = "" <;> simp [hi]
  · decide

/-- C3: `save_entry` looks up the existing metadata rows by `entry_id`
and updates both records if one is found, otherwise inserts both (the
length conjuncts witness which branch ran); consequently, starting from
any store with at most one metadata row per `entry_id`, every save
preserves that invariant, and two saves with the same `entry_id` and a
changed title leave exactly one stored metadata row for that id,
carrying the second title. -/
theorem c3_upsert_update_not_duplicate (net net2 : String → Nat → Option Embedding)
    (apiKey apiKey2 enable enable2 : Bool) (db : DB) (eid t1 t2 : String)
    (di1 dm1 pre1 ch1 html1 md1 di2 dm2 pre2 ch2 html2 md2 : Option String)
    (toc1 toc2 : Option (List TocEntry)) (au1 au2 : Option (List String))
    (now1 now2 : String) (hu : ∀ id2, metaCount db id2 ≤ 1) :
    (∀ id2, metaCount
      (save_entry net apiKey enable db eid t1 di1 dm1 pre1 ch1 html1 md1 toc1
        au1 now1).1 id2 ≤ 1) ∧
    (∀ id2, metaCount
      (save_entry net2 apiKey2 enable2
        (save_entry net apiKey enable db eid t1 di1 dm1 pre1 ch1 html1 md1 toc1
          au1 now1).1 eid t2 di2 dm2 pre2 ch2 html2 md2 toc2 au2 now2).1
        id2 ≤ 1) ∧
    metaCount
      (save_entry net2 apiKey2 enable2
        (save_entry net apiKey enable db eid t1 di1 dm1 pre1 ch1 html1 md1 toc1
          au1 now1).1 eid t2 di2 dm2 pre2 ch2 html2 md2 toc2 au2 now2).1
        eid = 1 ∧
    (((save_entry net2 apiKey2 enable2
        (save_entry net apiKey enable db eid t1 di1 dm1 pre1 ch1 html1 md1 toc1
          au1 now1).1 eid t2 di2 dm2 pre2 ch2 html2 md2 toc2 au2 now2).1.entry_metadata.filter
        fun r => r.entry_id == eid).map fun r => r.title) = [t2] ∧
    (metaCount db eid = 0 →
      (save_entry net apiKey enable db eid t1 di1 dm1 pre1 ch1 html1 md1 toc1
        au1 now1).1.entry_metadata.length = db.entry_metadata.length + 1 ∧
      (save_entry net apiKey enable db eid t1 di1 dm1 pre1 ch1 html1 md1 toc1
        au1 now1).1.entry_content.length = db.entry_content.length + 1) ∧
    (0 < metaCount db eid →
      (save_entry net apiKey enable db eid t1 di1 dm1 pre1 ch1 html1 md1 toc1
        au1 now1).1.entry_metadata.length = db.entry_metadata.length ∧
      (save_entry net apiKey enable db eid t1 di1 dm1 pre1 ch1 html1 md1 toc1
        au1 now1).1.entry_content.length = db.entry_content.length) := by
  have ht1 := save_entry_titles net apiKey enable db eid t1 di1 dm1 pre1 ch1
    html1 md1 toc1 au1 now1
  have hc1 : metaCount
      (save_entry net apiKey enable db eid t1 di1 dm1 pre1 ch1 html1 md1 toc1
        au1 now1).1 eid = max 1 (metaCount db eid) := by
    have hlen := congrArg List.length ht1
    simpa [metaCount] using hlen
  have hmax1 : max 1 (metaCount db eid) = 1 := by
    have h := hu eid
    rcases Nat.le_one_iff_eq_zero_or_eq_one.mp h with h0 | h1
    · rw [h0]
      decide
    · rw [h1]
      decide
  have hu1 : ∀ id2, metaCount
      (save_entry net apiKey enable db eid t1 di1 dm1 pre1 ch1 html1 md1 toc1
        au1 now1).1 id2 ≤ 1 := by
    intro id2
    by_cases h : id2 = eid
    · rw [h, hc1, hmax1]
    · rw [save_entry_count_ne net apiKey enable db eid t1 di1 dm1 pre1 ch1
        html1 md1 toc1 au1 now1 id2 h]
      exact hu id2
  have ht2 := save_entry_titles net2 apiKey2 enable2
    (save_entry net apiKey enable db eid t1 di1 dm1 pre1 ch1 html1 md1 toc1
      au1 now1).1 eid t2 di2 dm2 pre2 ch2 html2 md2 toc2 au2 now2
  rw [hc1, hmax1] at ht2
  have hc2 : metaCount
      (save_entry net2 apiKey2 enable2
        (save_entry net apiKey enable db eid t1 di1 dm1 pre1 ch1 html1 md1 toc1
          au1 now1).1 eid t2 di2 dm2 pre2 ch2 html2 md2 toc2 au2 now2).1 eid
        = 1 := by
    have hlen := congrArg List.length ht2
    simpa [metaCount] using hlen
  have hu2 : ∀ id2, metaCount
      (save_entry net2 apiKey2 enable2
        (save_entry net apiKey enable db eid t1 di1 dm1 pre1 ch1 html1 md1 toc1
          au1 now1).1 eid t2 di2 dm2 pre2 ch2 html2 md2 toc2 au2 now2).1
        id2 ≤ 1 := by
    intro id2
    by_cases h : id2 = eid
    · rw [h, hc2]
    · rw [save_entry_count_ne net2 apiKey2 enable2 _ eid t2 di2 dm2 pre2 ch2
        html2 md2 toc2 au2 now2 id2 h]
      exact hu1 id2
  have hlens := save_entry_lengths net apiKey enable db eid t1 di1 dm1 pre1
    ch1 html1 md1 toc1 au1 now1
  exact ⟨hu1, hu2, hc2, ht2, hlens.1, hlens.2⟩

/-- C3 witness: two saves with the same entry id and titles `"T1"` then
`"T2"` on an initially empty store leave one metadata row titled `"T2"`. -/
theorem c3_witness :
    (∀ id2, metaCount ⟨[], []⟩ id2 ≤ 1) ∧
    metaCount
      (save_entry (fun _ _ => none) false false
        (save_entry (fun _ _ => none) false false ⟨[], []⟩ "kant" "T1" none
          none none none none none none none "t0").1 "kant" "T2" none none
        none none none none none none "t1").1 "kant" = 1 ∧
    (((save_entry (fun _ _ => none) false false
        (save_entry (fun _ _ => none) false false ⟨[], []⟩ "kant" "T1" none
          none none none none none none none "t0").1 "kant" "T2" none none
        none none none none none none "t1").1.entry_metadata.filter
        fun r => r.entry_id == "kant").map fun r => r.title) = ["T2"] := by
  have hu : ∀ id2, metaCount (⟨[], []⟩ : DB) id2 ≤ 1 := by
    intro id2
    simp [metaCount]
  have h := c3_upsert_update_not_duplicate (fun _ _ => none) (fun _ _ => none)
    false false false false ⟨[], []⟩ "kant" "T1" "T2" none none none none none
    none none none none none none none none none none none "t0" "t1" hu
  exact ⟨hu, h.2.2.1, h.2.2.2.1⟩

/-- C4: `generate_embedding` never raises past its boundary (it is a
total function of its oracles): on blank or whitespace-only input it
returns `None` having made zero network attempts and no sleeps, and on
an always-failing remote call it returns `None` (for any text, any key
and any retry budget) instead of raising. -/
theorem c4_embed_never_raises (net net2 : String → Nat → Option Embedding)
    (apiKey apiKey2 : Bool) (mr : Nat) (text text2 : String)
    (hblank : pyStripStr text = "") (hfail : ∀ s i, net2 s i = none) :
    generate_embedding net apiKey text mr = ⟨none, 0, []⟩ ∧
    (generate_embedding net2 apiKey2 text2 mr).result = none := by
  constructor
  · unfold generate_embedding
    rw [hblank]
    simp [pyTruthy]
  · unfold generate_embedding
    split
    · rfl
    · split
      · rfl
      · exact retryLoop_fail_result _ (fun i => hfail _ i) mr mr 0 []

/-- C4 witness: the whitespace-only input `"   "` with a network oracle
that would succeed, and the input `"mind"` with an always-failing one. -/
theorem c4_witness :
    pyStripStr "   " = "" ∧
    generate_embedding (fun _ _ => some [1]) true "   " 3 = ⟨none, 0, []⟩ ∧
    (generate_embedding (fun _ _ => none) true "mind" 3).result = none := by
  have h := c4_embed_never_raises (fun _ _ => some [1]) (fun _ _ => none)
    true true 3 "   " "mind" (by decide) (fun s i => rfl)
  exact ⟨by decide, h.1, h.2⟩

/-- C7: on non-blank input with an always-failing remote call,
`generate_embedding` makes at most `max_retries` network attempts and
sleeps `2 ^ attempt` seconds after every failed attempt except the last,
so at the default `max_retries = 3` the attempts number exactly 3 and
the cumulative backoff is `1 + 2 = 3 ≤ 4` seconds; the loop is a total
Lean function, hence always terminates. -/
theorem c7_retry_bounded (net : String → Nat → Option Embedding)
    (text : String) (mr : Nat) (hnb : pyStripStr text ≠ "")
    (hfail : ∀ s i, net s i = none) :
    (generate_embedding net true text mr).attempts ≤ mr ∧
    (generate_embedding net true text mr).sleeps =
      (List.range (mr - 1)).map (fun j => 2 ^ j) ∧
    (mr = 3 → (generate_embedding net true text mr).attempts = 3 ∧
      (generate_embedding net true text mr).sleeps.sum = 3 ∧
      (generate_embedding net true text mr).sleeps.sum ≤ 4) := by
  have htext : text ≠ "" := by
    intro h
    apply hnb
    rw [h]
    rfl
  have h1 : pyTruthy text = true := by
    simp [pyTruthy, bne_iff_ne, htext]
  have h2 : pyTruthy (pyStripStr text) = true := by
    simp [pyTruthy, bne_iff_ne, hnb]
  have hgen : generate_embedding net true text mr =
      retryLoop (net (String.mk (text.data.take 20000))) mr mr 0 [] := by
    unfold generate_embedding
    rw [h1, h2]
    rfl
  cases mr with
  | zero =>
    rw [hgen]
    exact ⟨Nat.le_refl 0, rfl, by omega⟩
  | succ m =>
    have key := retryLoop_fail_trace (net (String.mk (text.data.take 20000)))
      (fun i => hfail _ i) (m + 1) (m + 1) 0 [] (by omega) (by omega)
    rw [hgen, key]
    refine ⟨Nat.le_refl _, by simp, fun h3 => ?_⟩
    rw [show m = 2 by omega]
    refine ⟨rfl, by decide, by decide⟩

/-- C7 witness: concrete non-blank input, always-failing oracle, default
retry budget 3. -/
theorem c7_witness :
    pyStripStr "kant" ≠ "" ∧
    (generate_embedding (fun _ _ => none) true "kant" 3).attempts = 3 ∧
    (generate_embedding (fun _ _ => none) true "kant" 3).sleeps = [1, 2] ∧
    (generate_embedding (fun _ _ => none) true "kant" 3).sleeps.sum ≤ 4 := by
  have h := c7_retry_bounded (fun _ _ => none) "kant" 3 (by decide) (fun s i => rfl)
  refine ⟨by decide, (h.2.2 rfl).1, ?_, (h.2.2 rfl).2.2⟩
  rw [h.2.1]
  decide

/-- C5 counterexample: in the `searchDB` store the query `"quine"`
matches exactly 2 titles and all 5 bodies, yet `search_by_text` with
`limit = 5` returns only 3 entries, not the claimed 5: the content query
is capped at `remaining = 3` rows *before* the already-found entries are
excluded, and the first 3 matching content rows include the 2
title-matched entries. -/
theorem c5_counterexample_content_cap :
    (searchDB.entry_metadata.filter fun r => ilike r.title "quine").length = 2 ∧
    (searchDB.entry_content.filter (mdMatches "quine")).length = 5 ∧
    (search_by_text searchDB "quine" 5).length = 3 ∧
    (search_by_text searchDB "quine" 5).length ≠ 5 := by decide

/-- C5 (amended): `search_by_text` returns the first `limit`
case-insensitive title substring matches, followed by the metadata of
entries drawn from only the first `limit − found` markdown-matching
content rows, excluding entries already found; so title matches precede
body-only matches, no entry id repeats (given unique ids per table), and
the total never exceeds `limit` — but it can fall short of `limit` even
when `limit` distinct matches exist, because the content query is capped
before the exclusion. -/
theorem c5_search_by_text_amended (db : DB) (q : String) (lim : Nat)
    (hmeta : (db.entry_metadata.map fun r => r.entry_id).Nodup)
    (hcont : (db.entry_content.map fun c => c.entry_id).Nodup) :
    ∃ extra,
      search_by_text db q lim =
        (db.entry_metadata.filter fun r => ilike r.title q).take lim ++ extra ∧
      (search_by_text db q lim).length ≤ lim ∧
      ((search_by_text db q lim).map fun r => r.entry_id).Nodup ∧
      ∀ r ∈ extra,
        r.entry_id ∉ (((db.entry_metadata.filter fun r => ilike r.title q).take
            lim).map fun r => r.entry_id) ∧
        r.entry_id ∈ (((db.entry_content.filter (mdMatches q)).take
            (lim - ((db.entry_metadata.filter fun r => ilike r.title q).take
              lim).length)).map fun c => c.entry_id) := by
  simp only [search_by_text]
  set tm := (db.entry_metadata.filter fun r => ilike r.title q).take lim with htm
  have htm_sub : tm.Sublist db.entry_metadata :=
    (List.take_sublist _ _).trans (List.filter_sublist _)
  have htm_nodup : (tm.map fun r => r.entry_id).Nodup :=
    hmeta.sublist (htm_sub.map _)
  by_cases hlt : tm.length < lim
  · rw [if_pos hlt]
    set cm := (db.entry_content.filter (mdMatches q)).take (lim - tm.length)
      with hcm
    set nids := (cm.map fun c => c.entry_id).filter
      (fun i => !((tm.map fun r => r.entry_id).contains i)) with hnids
    set extra := nids.flatMap fun i =>
      db.entry_metadata.filter fun r => r.entry_id == i with hextra
    have hid : (extra.map fun r => r.entry_id).Sublist nids :=
      flatMap_ids_sublist nids _
        (fun i => filter_id_map_of_nodup db.entry_metadata hmeta i)
    have hcm_len : nids.length ≤ lim - tm.length := by
      calc nids.length ≤ (cm.map fun c => c.entry_id).length :=
            (List.filter_sublist _).length_le
      _ ≤ lim - tm.length := by
            rw [List.length_map]
            exact List.length_take_le _ _
    refine ⟨extra, rfl, ?_, ?_, ?_⟩
    · rw [List.length_append]
      have h1 := hid.length_le
      rw [List.length_map] at h1
      omega
    · rw [List.map_append]
      have hcm_nodup : (cm.map fun c => c.entry_id).Nodup :=
        hcont.sublist (((List.take_sublist _ _).trans
          (List.filter_sublist _)).map _)
      have hnew_nodup := (hcm_nodup.sublist (List.filter_sublist _)).sublist hid
      refine htm_nodup.append hnew_nodup ?_
      intro a ha hmem
      have ha2 := hid.subset hmem
      have hnc := (List.mem_filter.mp ha2).2
      exact absurd ha (by simpa using hnc)
    · intro r hr
      obtain ⟨i, hi, hri⟩ := List.mem_flatMap.mp hr
      have hrid : r.entry_id = i := by
        have := List.of_mem_filter hri
        simpa using this
      have hi2 := List.mem_filter.mp hi
      constructor
      · rw [hrid]
        simpa using hi2.2
      · rw [hrid]
        exact hi2.1
  · rw [if_neg hlt]
    refine ⟨[], by rw [List.append_nil], ?_, ?_, by intro r hr; cases hr⟩
    · exact List.length_take_le _ _
    · exact htm_nodup

/-- C5 witness: the amended search characterization instantiated on the
concrete `searchDB` store. -/
theorem c5_witness :
    (searchDB.entry_metadata.map fun r => r.entry_id).Nodup ∧
    (searchDB.entry_content.map fun c => c.entry_id).Nodup ∧
    ∃ extra,
      search_by_text searchDB "quine" 5 =
        (searchDB.entry_metadata.filter fun r => ilike r.title "quine").take 5
          ++ extra ∧
      (search_by_text searchDB "quine" 5).length ≤ 5 ∧
      ((search_by_text searchDB "quine" 5).map fun r => r.entry_id).Nodup ∧
      ∀ r ∈ extra,
        r.entry_id ∉ (((searchDB.entry_metadata.filter fun r =>
            ilike r.title "quine").take 5).map fun r => r.entry_id) ∧
        r.entry_id ∈ (((searchDB.entry_content.filter (mdMatches "quine")).take
            (5 - ((searchDB.entry_metadata.filter fun r =>
              ilike r.title "quine").take 5).length)).map fun c => c.entry_id) :=
  ⟨by decide, by decide,
    c5_search_by_text_amended searchDB "quine" 5 (by decide) (by decide)⟩

/-- C6: author extraction strips the leading `Entry by:` marker, splits
on commas, the word `and`, or an ampersand, trims whitespace from each
fragment and discards empty fragments, preserving source order and
duplicates: the claim's example input yields exactly
`["Jane Doe", "John Smith", "A. N. Other"]`; order and duplicates are
preserved (`"A, B, A"` yields `["A", "B", "A"]`); and every returned
fragment is non-empty and whitespace-trimmed. -/
theorem c6_author_parsing (s : String) :
    extract_authors "Entry by: Jane Doe, John Smith and A. N. Other" =
      ["Jane Doe", "John Smith", "A. N. Other"] ∧
    extract_authors "A, B, A" = ["A", "B", "A"] ∧
    ∀ a ∈ extract_authors s, a ≠ "" ∧ pyStripStr a = a := by
  refine ⟨by decide, by decide, ?_⟩
  intro a ha
  unfold extract_authors at ha
  simp only [List.mem_filter, List.mem_map] at ha
  obtain ⟨⟨cs, _, rfl⟩, hne⟩ := ha
  refine ⟨by simpa [bne_iff_ne] using hne, ?_⟩
  unfold pyStripStr
  exact congrArg String.mk (pyStrip_idem cs)

/-- C6 witness: the claim's example input, with the trimmed/non-empty
property checked on its first returned author. -/
theorem c6_witness :
    extract_authors "Entry by: Jane Doe, John Smith and A. N. Other" =
      ["Jane Doe", "John Smith", "A. N. Other"] ∧
    "Jane Doe" ∈ extract_authors "Entry by: Jane Doe, John Smith and A. N. Other" ∧
    "Jane Doe" ≠ "" ∧ pyStripStr "Jane Doe" = "Jane Doe" := by
  have h := c6_author_parsing "Entry by: Jane Doe, John Smith and A. N. Other"
  have hmem : "Jane Doe" ∈
      extract_authors "Entry by: Jane Doe, John Smith and A. N. Other" := by
    rw [h.1]
    exact List.mem_cons_self _ _
  exact ⟨h.1, hmem, h.2.2 "Jane Doe" hmem⟩

/-- C8: when embedding the query fails (`generate_embedding` returns
`None`), `vector_search` returns the empty list — and no `match_entries`
nearest-neighbour RPC is issued (second component `false`) — rather than
raising. -/
theorem c8_vector_search_embed_failure (net : String → Nat → Option Embedding)
    (apiKey : Bool) (rpc : Embedding → Int → Nat → String → Option (List MetadataRow))
    (query : String) (lim : Nat) (search_type : String) (thr : Int)
    (h : (generate_embedding net apiKey query 3).result = none) :
    vector_search net apiKey rpc query lim search_type thr = ([], false) := by
  unfold vector_search
  rw [h]

/-- C8 witness: a concrete always-failing network oracle. -/
theorem c8_witness :
    (generate_embedding (fun _ _ => none) true "mind" 3).result = none ∧
    vector_search (fun _ _ => none) true (fun _ _ _ _ => some []) "mind" 10
      "content" 75 = ([], false) :=
  ⟨by decide, c8_vector_search_embed_failure _ _ _ _ _ _ _ (by decide)⟩

/-- C9: `entry_exists` on a URL that does not start with
`https://plato.stanford.edu/entries/` returns `False` without issuing
the `HEAD` request (second component `false`). -/
theorem c9_entry_exists_no_request (head : String → Option Nat) (url : String)
    (h : pyStartsWith url sepUrlStart = false) :
    entry_exists head url = (false, false) := by
  unfold entry_exists
  rw [h]
  rfl

/-- C10: whenever `regenerate_embeddings` processes its fetched page
without an exception escaping to the outer handler (equivalently,
`total_processed` is present in the returned dict), every entry of the
page lands in exactly one of the two counters:
`success_count + failure_count = total_processed`, and
`total_processed` is the page length — so one entry's failure (missing
content, missing markdown, an embedding exception, or a failed update)
never prevents the remaining entries from being processed and counted. -/
theorem c10_regen_counters (pageFetch : Except Unit (List (String × String)))
    (contentFetch : String → Except Unit (List (Option String)))
    (embed : String → String → Except Unit (Option Embedding × Option Embedding))
    (update : String → Option Embedding × Option Embedding → Except Unit Bool)
    (t : Nat)
    (h : (regenerate_embeddings pageFetch contentFetch embed update).total_processed
          = some t) :
    (regenerate_embeddings pageFetch contentFetch embed update).success_count +
      (regenerate_embeddings pageFetch contentFetch embed update).failure_count = t ∧
    ∃ entries, pageFetch = .ok entries ∧ t = entries.length := by
  cases pageFetch with
  | error u => exact absurd h (by simp [regenerate_embeddings])
  | ok entries =>
    unfold regenerate_embeddings at h ⊢
    dsimp only at h ⊢
    cases hdone : (regen_loop contentFetch embed update entries 0 0).2.2 with
    | false =>
      rw [hdone] at h
      simp at h
    | true =>
      rw [hdone] at h
      simp only [if_true] at h
      have hlen : entries.length = t := by
        injection h
      have hsum := regen_loop_sum contentFetch embed update entries 0 0 hdone
      refine ⟨by omega, entries, rfl, hlen.symm⟩

/-- C10 witness: a two-entry page where the first entry's embedding call
raises and the second succeeds; counters are 1 and 1, total 2. -/
theorem c10_witness :
    (regenerate_embeddings (.ok [("a", "A"), ("b", "B")])
        (fun _ => .ok [some "md"])
        (fun ti _ => if ti = "A" then .error () else .ok (some [1], some [2]))
        (fun _ _ => .ok true)).total_processed = some 2 ∧
    (regenerate_embeddings (.ok [("a", "A"), ("b", "B")])
        (fun _ => .ok [some "md"])
        (fun ti _ => if ti = "A" then .error () else .ok (some [1], some [2]))
        (fun _ _ => .ok true)).success_count +
      (regenerate_embeddings (.ok [("a", "A"), ("b", "B")])
        (fun _ => .ok [some "md"])
        (fun ti _ => if ti = "A" then .error () else .ok (some [1], some [2]))
        (fun _ _ => .ok true)).failure_count = 2 := by
  have h := c10_regen_counters (.ok [("a", "A"), ("b", "B")])
    (fun _ => .ok [some "md"])
    (fun ti _ => if ti = "A" then .error () else .ok (some [1], some [2]))
    (fun _ _ => .ok true) 2 (by decide)
  exact ⟨by decide, h.1⟩

/-- C9 witness: a wrong-domain URL with an oracle that would answer 200. -/
theorem c9_witness :
    pyStartsWith "https://other.example/entries/kant/" sepUrlStart = false ∧
    entry_exists (fun _ => some 200) "https://other.example/entries/kant/" =
      (false, false) :=
  ⟨by decide, c9_entry_exists_no_request _ _ (by decide)⟩

end SEP
